import Mathlib

/-!
Shallow embedding of the schema/include machinery of the FastAPI-JSONAPI
repository: `fastapi_jsonapi/schemas_storage.py`, `fastapi_jsonapi/models_storage.py`,
`fastapi_jsonapi/views/view_base.py`, `fastapi_jsonapi/views/utils.py` and
`fastapi_jsonapi/schema.py`.  Python dicts are modelled as insertion-ordered
association lists, exceptions as an `Except` monad over `PyErr`, user-supplied
callables (pydantic coercion and validators) as Lean functions, and pydantic
schema objects by the data the code reads off them.
-/

/-- Python exception outcomes that the embedded code can raise. -/
inductive PyErr where
  | keyError (msg : String)
  | attributeError (msg : String)
  | typeError (msg : String)
  | valueError (msg : String)
  | internalServerError (msg : String)
  | badRequest (msg : String)
  | validationError (msg : String)
  | internalErr (msg : String)
  | fuelExhausted
  deriving DecidableEq, Repr

/-- Attribute values carried by database items and serialized documents. -/
inductive Value where
  | vInt (n : Int)
  | vStr (s : String)
  | vNone
  deriving DecidableEq, Repr

/-- Python `str(value)` / f-string conversion for the values we model. -/
def Value.toStr : Value → String
  | .vInt n => toString n
  | .vStr s => s
  | .vNone => "None"

/-- Dict lookup on an insertion-ordered association list (Python `d.get(k)` /
`d[k]` before the KeyError check). -/
def alookup {α β : Type} [DecidableEq α] : List (α × β) → α → Option β
  | [], _ => none
  | (k, v) :: rest, key => if k = key then some v else alookup rest key

/-- Dict assignment `d[k] = v`: replace the first binding of `k` in place,
or append a new binding when the key is absent. -/
def alistSet {α β : Type} [DecidableEq α] : List (α × β) → α → β → List (α × β)
  | [], key, val => [(key, val)]
  | (k, v) :: rest, key, val =>
      if k = key then (key, val) :: rest else (k, v) :: alistSet rest key val

/-! ## Include path grouping (`ViewBase._prepare_include_params`) -/

/-- Python `s.startswith(p)`: `p` is a prefix of `s` as a character sequence. -/
def pyStartsWith (s p : String) : Bool :=
  p.data.isPrefixOf s.data

/-- Lexicographic comparison of code-point sequences. -/
def lexLeChars : List Char → List Char → Bool
  | [], _ => true
  | _ :: _, [] => false
  | x :: xs, y :: ys =>
      if x.toNat < y.toNat then true
      else if y.toNat < x.toNat then false
      else lexLeChars xs ys

/-- Python string comparison: lexicographic on code points. -/
def pyStrLe (a b : String) : Bool := lexLeChars a.data b.data

/-- Stable insertion into an ascending list. -/
def insort (s : String) : List String → List String
  | [] => [s]
  | x :: xs => if pyStrLe s x then s :: x :: xs else x :: insort s xs

/-- Python `sorted` on strings: a stable ascending sort by code points
(insertion sort produces the same output as the source's sort). -/
def pySortStrings : List String → List String
  | [] => []
  | x :: xs => insort x (pySortStrings xs)

/-- Python `s.split(".")` (on character sequences; empty segments kept). -/
def splitCharsOnDot : List Char → List (List Char)
  | [] => [[]]
  | c :: cs =>
      let r := splitCharsOnDot cs
      if c = '.' then [] :: r
      else
        match r with
        | [] => [[c]]
        | w :: ws => (c :: w) :: ws

/-- Python `s.split(".")` on strings. -/
def pySplitDot (s : String) : List String :=
  (splitCharsOnDot s.data).map (fun cs => String.mk cs)

/-- The retention loop of `_prepare_include_params` (view_base.py lines 180-186):
`prev` starts at the head of the sorted list; an element that the next element
`startswith`-extends is dropped, otherwise it is retained; the last `prev` is
always retained. -/
def include_retain_loop : String → List String → List String
  | prev, [] => [prev]
  | prev, x :: xs =>
      if pyStartsWith x prev then include_retain_loop x xs
      else prev :: include_retain_loop x xs

/-- `ViewBase._prepare_include_params` (view_base.py lines 175-187): sort the
requested include strings, run the retention loop (the first iteration of the
Python loop compares the head with itself and is a no-op, so the loop is run on
the tail), and split each retained string on dots.  Unpacking `prev, *_ =`
raises ValueError on an empty list. -/
def prepare_include_params (includes : List String) : Except PyErr (List (List String)) :=
  match pySortStrings includes with
  | [] => .error (.valueError "not enough values to unpack")
  | first :: rest => .ok ((include_retain_loop first rest).map pySplitDot)

/-! ## Data model shared by the storages and the view layer -/

/-- User-declared pydantic schema classes are identified by name. -/
abbrev SchemaId := String

/-- ORM model classes are identified by name. -/
abbrev ModelId := String

/-- Modelled from the spec: `RelationshipInfo` in
`fastapi_jsonapi/types_metadata/relationship_info.py` is not under `src/`;
per the spec's RelationshipDescriptor it carries the target resource type,
the cardinality flag and the identifier field name used for linkage objects.
The attribute names follow the uses in `view_base.py` and
`schemas_storage.py` (`info.resource_type`, `info.many`,
`info.id_field_name`). -/
structure RelationshipInfo where
  resource_type : String
  many : Bool
  id_field_name : String
  deriving DecidableEq, Repr

/-- A pydantic field coercion: validating a value through the field's type. -/
abbrev Coercer := Value → Except PyErr Value

/-- A single-field schema from the `field_schemas` map: constructing it with
its one keyword argument coerces that value. -/
abbrev FieldSchema := Coercer

/-- The attributes-only schema: its declared attribute fields in order, each
with its coercion.  `model_validate(db_item)` (with `from_attributes`) reads
each declared field off the item and coerces it; a missing attribute is a
pydantic ValidationError. -/
structure AttrsSchema where
  fields : List (String × Coercer)

/-- A model validator taken off the source schema: dict-shaped data in,
dict-shaped data out (used for both `before` and `after` phases). -/
abbrev ValFun := List (String × Value) → List (String × Value)

/-- One entry of the `model_validators` mapping handed to `add_resource`:
`validator.decorator_info.mode` and `validator.wrapped`. -/
structure ValidatorDecl where
  mode : String
  wrapped : ValFun

/-- The relationship linkage value stored under one key of a serialized
item's `relationships` object: `None`, one `(id, type)` object, or a list
of `(id, type)` objects. -/
inductive Linkage where
  | nullData
  | one (id type_ : String)
  | many (objs : List (String × String))
  deriving DecidableEq, Repr

/-- One serialized resource object as built by `_prepare_item_data` /
`_process_includes`: the `id`, `type` and `attributes` members, and the
`relationships` member which is absent (`none`) until `_process_includes`
creates it. -/
structure ItemData where
  id : String
  type_ : String
  attributes : List (String × Value)
  relationships : Option (List (String × Linkage))
  deriving DecidableEq, Repr

/-- The generated `data` schema for a resource: constructing it with `id=`
and `attributes=` and dumping yields the resource object with the schema's
resource type and no `relationships` key. -/
structure DataSchema where
  resource_type : String

/-- Dump of `data_schema(id=..., attributes=...).model_dump()`. -/
def DataSchema.mk_dump (ds : DataSchema) (id : String) (attributes : List (String × Value)) :
    ItemData :=
  { id := id, type_ := ds.resource_type, attributes := attributes, relationships := none }

/-- The per-`(resource_type, operation_type)` record stored by
`SchemasStorage.add_resource` (schemas_storage.py lines 73-81). -/
structure VariantSet where
  attrs_schema : AttrsSchema
  field_schemas : List (String × FieldSchema)
  data_schema : DataSchema
  relationships_info : List (String × RelationshipInfo)
  model_validators : (List (String × ValFun)) × (List (String × ValFun))

/-- The dict stored at `self._data[resource_type]`: the `"relationships"`
key created by `_init_resource_if_needed` plus one key per registered
operation type. -/
structure ResourceEntry where
  relationships : List (String × List ((String × String) × (Option SchemaId × RelationshipInfo)))
  ops : List (String × VariantSet)

/-- `SchemasStorage` state: `_data` and `_registered_schemas`
(the `_jsonapi_object_schemas` cache is not used by the code under study). -/
structure SchemasState where
  data : List (String × ResourceEntry)
  registered_schemas : List (Option SchemaId × String × String)

/-- `ModelsStorage._data` as defined in models_storage.py: it maps a
resource type to its model only. -/
structure ModelsState where
  data : List (String × ModelId)

/-! ## Storage lookups (schemas_storage.py lines 121-156, models_storage.py) -/

/-- Shared indexing `self._data[resource_type][operation_type]`: a plain
dict index, so an absent resource type or operation type raises KeyError. -/
def storage_variant (st : SchemasState) (resource_type operation_type : String) :
    Except PyErr VariantSet :=
  match alookup st.data resource_type with
  | none => .error (.keyError resource_type)
  | some entry =>
      match alookup entry.ops operation_type with
      | none => .error (.keyError operation_type)
      | some vs => .ok vs

/-- `SchemasStorage.get_data_schema`. -/
def get_data_schema (st : SchemasState) (resource_type operation_type : String) :
    Except PyErr DataSchema := do
  let vs ← storage_variant st resource_type operation_type
  .ok vs.data_schema

/-- `SchemasStorage.get_attrs_schema`. -/
def get_attrs_schema (st : SchemasState) (resource_type operation_type : String) :
    Except PyErr AttrsSchema := do
  let vs ← storage_variant st resource_type operation_type
  .ok vs.attrs_schema

/-- `SchemasStorage.get_field_schema`: indexes resource type and operation
type (KeyError when absent) and then uses `.get` on the field name, so an
absent field name yields `None` rather than an error. -/
def get_field_schema (st : SchemasState) (resource_type operation_type field_name : String) :
    Except PyErr (Option FieldSchema) := do
  let vs ← storage_variant st resource_type operation_type
  .ok (alookup vs.field_schemas field_name)

/-- `SchemasStorage.get_model_validators`. -/
def get_model_validators (st : SchemasState) (resource_type operation_type : String) :
    Except PyErr ((List (String × ValFun)) × (List (String × ValFun))) := do
  let vs ← storage_variant st resource_type operation_type
  .ok vs.model_validators

/-- `SchemasStorage.get_relationship`: `.get` on the field name, so an
absent relationship name yields `None`. -/
def get_relationship (st : SchemasState) (resource_type operation_type field_name : String) :
    Except PyErr (Option RelationshipInfo) := do
  let vs ← storage_variant st resource_type operation_type
  .ok (alookup vs.relationships_info field_name)

/-- `ModelsStorage.get_model`: a KeyError on `_data` is caught and re-raised
as InternalServerError. -/
def models_get_model (st : ModelsState) (resource_type : String) : Except PyErr ModelId :=
  match alookup st.data resource_type with
  | some m => .ok m
  | none => .error (.internalServerError ("Not found model for resource_type " ++ resource_type))

/-- A positional argument of a call to `ModelsStorage.add_model`. -/
inductive PyArg where
  | s (v : String)
  | m (v : ModelId)
  deriving DecidableEq, Repr

/-- `ModelsStorage.add_model` applied to a positional-argument list, with
Python call semantics: the definition in models_storage.py lines 17-18 binds
exactly `(resource_type, model)`, so any other arity raises TypeError. -/
def models_add_model (st : ModelsState) (args : List PyArg) : Except PyErr ModelsState :=
  match args with
  | [.s resource_type, .m model] => .ok { data := alistSet st.data resource_type model }
  | _ => .error (.typeError "add_model takes 3 positional arguments")

/-- The relationship shape of the ORM models, consumed by the registered
`sqla` search handler (`getattr(model, field_name).property.entity.entity`). -/
structure ModelEnv where
  rel : ModelId → String → Option ModelId

/-- `ModelsStorage.search_relationship_model` with the registered `sqla`
handler: an unknown relationship attribute raises BadRequest. -/
def search_relationship_model (menv : ModelEnv) (resource_type : String) (model : ModelId)
    (field_name : String) : Except PyErr ModelId :=
  match menv.rel model field_name with
  | some m => .ok m
  | none =>
      .error (.badRequest
        ("There is no related model for resource_type " ++ resource_type ++
          " by relation " ++ field_name))

/-! ## Database items -/

mutual

/-- A loaded ORM entity: plain attribute values plus relationship
attributes, each of which is a to-one object (possibly `None`) or a list. -/
inductive Entity where
  | mk (attrs : List (String × Value)) (rels : List (String × EntityRel))

/-- The value of a relationship attribute of an entity. -/
inductive EntityRel where
  | one : Option Entity → EntityRel
  | many : List Entity → EntityRel

end

/-- Plain attribute access on an entity. -/
def Entity.attr : Entity → String → Option Value
  | .mk attrs _, name => alookup attrs name

/-- Relationship attribute access on an entity. -/
def Entity.relAttr : Entity → String → Option EntityRel
  | .mk _ rels, name => alookup rels name

/-- Python `getattr(db_item, name)` for a plain attribute: AttributeError
when the attribute does not exist. -/
def pyAttr (e : Entity) (name : String) : Except PyErr Value :=
  match e.attr name with
  | some v => .ok v
  | none => .error (.attributeError name)

/-- `attrs_schema.model_validate(db_item)` followed by `.model_dump()`:
read every declared field off the item (pydantic ValidationError when one is
missing) and coerce it through its field type. -/
def AttrsSchema.validate_dump (s : AttrsSchema) (e : Entity) :
    Except PyErr (List (String × Value)) :=
  s.fields.mapM (fun nc => do
    match e.attr nc.1 with
    | none => .error (.validationError nc.1)
    | some v => do
        let v2 ← nc.2 v
        pure (nc.1, v2))

/-! ## Item serialization (`ViewBase._prepare_item_data`, view_base.py lines 130-173) -/

/-- The `include_fields` argument: requested resource type → requested field
name → the field schema `_get_include_fields` stored for it
(`get_field_schema` may have returned `None`). -/
abbrev IncludeFieldsMap := List (String × List (String × Option FieldSchema))

/-- `ViewBase._prepare_item_data`.  The full-attributes branch runs when
`include_fields` is `None` or holds no truthy entry for this resource type
(an empty per-type dict is falsy); it serializes `db_item.id` and the full
attributes schema.  The sparse branch collects the requested fields (an `""`
selector clears them), applies the stored `before` validators to the
collected dict, coerces each field through its own single-field schema,
applies the `after` validators per field ... and then evaluates
`models_storage.get_object_id(db_item, resource_type)` (view_base.py line
170).  `ModelsStorage` in models_storage.py defines no `get_object_id`
attribute, so per Python attribute lookup this raises AttributeError. -/
def prepare_item_data (sst : SchemasState) (db_item : Entity) (resource_type : String)
    (include_fields : Option IncludeFieldsMap) : Except PyErr ItemData :=
  let fsOpt : Option (List (String × Option FieldSchema)) :=
    match include_fields with
    | none => none
    | some m =>
        match alookup m resource_type with
        | none => none
        | some [] => none
        | some fs => some fs
  match fsOpt with
  | none => do
      let attrs_schema ← get_attrs_schema sst resource_type "get"
      let data_schema ← get_data_schema sst resource_type "get"
      let idv ← pyAttr db_item "id"
      let attrs ← attrs_schema.validate_dump db_item
      .ok (data_schema.mk_dump idv.toStr attrs)
  | some field_schemas => do
      let _result_attributes ←
        if (field_schemas.map Prod.fst).contains "" then
          pure ([] : List (String × Value))
        else do
          let pre0 ← field_schemas.mapM (fun nf => do
            let v ← pyAttr db_item nf.1
            pure (nf.1, v))
          let validators ← get_model_validators sst resource_type "get"
          let pre := validators.1.foldl (fun pv nv => nv.2 pv) pre0
          field_schemas.mapM (fun nf => do
            let v ← match alookup pre nf.1 with
                    | some v => pure v
                    | none => (.error (.keyError nf.1) : Except PyErr Value)
            let fs ← match nf.2 with
                     | some fs => pure fs
                     | none => (.error (.typeError "NoneType object is not callable") :
                         Except PyErr FieldSchema)
            let v2 ← fs v
            let validated := validators.2.foldl (fun m nv => nv.2 m) [(nf.1, v2)]
            match alookup validated nf.1 with
            | some out => pure (nf.1, out)
            | none => (.error (.attributeError nf.1) : Except PyErr (String × Value)))
      .error (.attributeError "ModelsStorage object has no attribute get_object_id")

/-! ## Endpoint dependency handling (view_base.py lines 96-128, views/utils.py) -/

/-- The `HTTPMethod` enum from views/utils.py. -/
inductive HTTPMethod where
  | all | get | post | patch | delete
  deriving DecidableEq, Repr

/-- `HTTPMethod.names()`: the set of member names, which includes `"ALL"`. -/
def HTTPMethod.memberNames : List String := ["ALL", "GET", "POST", "PATCH", "DELETE"]

/-- Enum lookup `HTTPMethod[name]`. -/
def HTTPMethod.fromName (s : String) : Option HTTPMethod :=
  if s = "ALL" then some .all
  else if s = "GET" then some .get
  else if s = "POST" then some .post
  else if s = "PATCH" then some .patch
  else if s = "DELETE" then some .delete
  else none

/-- Extra view dependency values handed to the view. -/
abbrev ExtraDeps := List (String × Value)

/-- Keyword arguments for the data layer. -/
abbrev Kwargs := List (String × Value)

/-- `HTTPMethodConfig`: the optional dependencies DTO class (modelled by the
DTO it builds from the extra dependencies) and the optional handler (its
`handler` property is `prepare_data_layer_kwargs`).  Handlers are modelled
as pure functions from the optional DTO to the kwargs they return. -/
structure HTTPMethodConfig where
  dependencies : Option (ExtraDeps → List (String × Value))
  prepare_data_layer_kwargs : Option (Option (List (String × Value)) → Kwargs)

/-- `ViewBase._handle_config`: no handler means no kwargs; with a
dependencies DTO class the handler is called on the built DTO. -/
def handle_config (cfg : HTTPMethodConfig) (extra : ExtraDeps) : Kwargs :=
  match cfg.prepare_data_layer_kwargs with
  | none => []
  | some h =>
      match cfg.dependencies with
      | some d => h (some (d extra))
      | none => h none

/-- Python `dict.update`: fold the right dict into the left one. -/
def dict_update (a b : Kwargs) : Kwargs :=
  b.foldl (fun acc kv => alistSet acc kv.1 kv.2) a

/-- `ViewBase.handle_endpoint_dependencies`: start from `{}`, merge the
`HTTPMethod.ALL` config's kwargs, return early when the request method is
not an `HTTPMethod` member name, then merge the method-specific config's
kwargs. -/
def handle_endpoint_dependencies (deps : List (HTTPMethod × HTTPMethodConfig))
    (request_method : String) (extra : ExtraDeps) : Kwargs :=
  let dl : Kwargs := []
  let dl := match alookup deps .all with
            | some c => dict_update dl (handle_config c extra)
            | none => dl
  if ¬ (request_method ∈ HTTPMethod.memberNames) then dl
  else
    match HTTPMethod.fromName request_method with
    | none => dl
    | some m =>
        match alookup deps m with
        | some c => dict_update dl (handle_config c extra)
        | none => dl

/-! ## Include expansion (`ViewBase._process_includes`, view_base.py lines 189-270)

Python mutates the serialized item dicts in place and stores references to
them in `result_included`, so deeper recursion levels fill the
`relationships` member of already-included entries.  The embedding makes
this aliasing explicit with a heap of `ItemData` cells addressed by index;
`result_included` maps `(resource_type, id)` keys to heap addresses. -/

/-- The mutable state of one include expansion: the heap of serialized item
dicts and the accumulated `result_included` map. -/
structure IncludedState where
  heap : List ItemData
  included : List ((String × String) × Nat)

/-- In-place update of the list cell at an index (out-of-range indices are
unreachable for the heap addresses handed out below). -/
def list_modify {α : Type} : List α → Nat → (α → α) → List α
  | [], _, _ => []
  | x :: xs, 0, f => f x :: xs
  | x :: xs, n + 1, f => x :: list_modify xs n f

/-- `item_data["relationships"] = item_data.get("relationships", {})`
(view_base.py line 205). -/
def heap_init_rels (st : IncludedState) (r : Nat) : IncludedState :=
  { st with
    heap := list_modify st.heap r (fun d =>
      match d.relationships with
      | none => { d with relationships := some [] }
      | some _ => d) }

/-- `item_data["relationships"][target] = linkage` (view_base.py lines 241
and 268); the `relationships` member was created by `heap_init_rels` in the
same loop body. -/
def heap_set_rel (st : IncludedState) (r : Nat) (target : String) (l : Linkage) :
    IncludedState :=
  { st with
    heap := list_modify st.heap r (fun d =>
      { d with relationships := some (alistSet (d.relationships.getD []) target l) }) }

/-- The `if not (relationship_item_data := result_included.get(include_key))`
pattern (view_base.py lines 223-229 and 252-254): reuse the already-included
entry for this `(resource_type, id)` key, otherwise serialize the entity
(`fieldsOpt` is the `include_fields` argument the branch passes, `none` for
the to-one branch which passes no `include_fields`) and insert it.  Stored
entries always carry `id` and `type` members, so the stored dict is never
falsy. -/
def lookup_or_serialize (sst : SchemasState) (fieldsOpt : Option IncludeFieldsMap)
    (child : Entity) (child_type : String) (key : String × String) (st : IncludedState) :
    Except PyErr (IncludedState × Nat) :=
  match alookup st.included key with
  | some ref => .ok (st, ref)
  | none =>
      match prepare_item_data sst child child_type fieldsOpt with
      | .error e => .error e
      | .ok d =>
          .ok ({ heap := st.heap ++ [d],
                 included := st.included ++ [(key, st.heap.length)] },
               st.heap.length)

/-- The to-many loop of `_process_includes` (view_base.py lines 218-238):
for each related item compute its include key (AttributeError when the id
field is missing), reuse-or-serialize it with the requested `include_fields`,
and collect the items to process and the linkage objects in order. -/
def process_children (sst : SchemasState) (fields : IncludeFieldsMap)
    (info : RelationshipInfo) :
    List Entity → IncludedState →
    Except PyErr (IncludedState × List (Entity × Nat) × List (String × String))
  | [], st => .ok (st, [], [])
  | c :: cs, st =>
      match pyAttr c info.id_field_name with
      | .error e => .error e
      | .ok idv =>
          match lookup_or_serialize sst (some fields) c info.resource_type
              (info.resource_type, idv.toStr) st with
          | .error e => .error e
          | .ok (st1, ref) =>
              match process_children sst fields info cs st1 with
              | .error e => .error e
              | .ok (st2, pairs, links) =>
                  .ok (st2, (c, ref) :: pairs, (idv.toStr, info.resource_type) :: links)

/-- One include path processed for a list of `(db_item, item_data)` pairs:
the body of `_process_includes` for a single member of `include_paths`,
including the recursive call on the path's tail.  The first argument is
recursion fuel; the Python recursion terminates because every recursive call
shortens the include path, and any fuel of at least the total include-path
length times the number of processed items behaves identically to the
source. -/
def process_includes_path (sst : SchemasState) (fields : IncludeFieldsMap) :
    Nat → String → List String → List (Entity × Nat) → IncludedState →
    Except PyErr IncludedState
  | 0, _, _, _, _ => .error .fuelExhausted
  | _ + 1, _, _, [], st => .ok st
  | _ + 1, _, [], _ :: _, _ => .error (.internalErr "empty include path")
  | fuel + 1, rt, target :: tail, (e, r) :: more, st0 =>
      let st1 := heap_init_rels st0 r
      match get_relationship sst rt "get" target with
      | .error err => .error err
      | .ok none => .error (.attributeError "NoneType object has no attribute many")
      | .ok (some info) =>
          if info.many then
            match e.relAttr target with
            | some (.many children) =>
                match process_children sst fields info children st1 with
                | .error err => .error err
                | .ok (st2, pairs, links) =>
                    let deeper :=
                      if tail.isEmpty then .ok st2
                      else process_includes_path sst fields fuel info.resource_type tail pairs st2
                    match deeper with
                    | .error err => .error err
                    | .ok st3 =>
                        let st4 := heap_set_rel st3 r target (.many links)
                        process_includes_path sst fields fuel rt (target :: tail) more st4
            | some (.one _) => .error (.typeError "object is not iterable")
            | none => .error (.attributeError target)
          else
            match e.relAttr target with
            | some (.one none) =>
                let st2 := heap_set_rel st1 r target .nullData
                process_includes_path sst fields fuel rt (target :: tail) more st2
            | some (.one (some child)) =>
                match pyAttr child info.id_field_name with
                | .error err => .error err
                | .ok idv =>
                    match lookup_or_serialize sst none child info.resource_type
                        (info.resource_type, idv.toStr) st1 with
                    | .error err => .error err
                    | .ok (st2, ref) =>
                        let deeper :=
                          if tail.isEmpty then .ok st2
                          else process_includes_path sst fields fuel info.resource_type tail
                            [(child, ref)] st2
                        match deeper with
                        | .error err => .error err
                        | .ok st3 =>
                            let st4 := heap_set_rel st3 r target
                              (.one idv.toStr info.resource_type)
                            process_includes_path sst fields fuel rt (target :: tail) more st4
            | some (.many _) => .error (.attributeError info.id_field_name)
            | none => .error (.attributeError target)

/-- `ViewBase._process_includes`: for each `(db_item, item_data)` pair, for
each include path, run the single-path body.  `process_includes_path` on a
singleton item list performs exactly one loop body (including the per-item
`relationships` initialization, which is idempotent), so this fold matches
the source's item-major loop nesting. -/
def process_includes (sst : SchemasState) (fields : IncludeFieldsMap) (fuel : Nat)
    (resource_type : String) (items : List (Entity × Nat))
    (include_paths : List (List String)) (st : IncludedState) :
    Except PyErr IncludedState :=
  items.foldlM (fun acc er =>
    include_paths.foldlM (fun acc2 p =>
      process_includes_path sst fields fuel resource_type p [er] acc2) acc) st

/-! ## Schema registration (`SchemasStorage.add_resource`, schemas_storage.py lines 50-119) -/

/-- The annotation of a relationship field, as inspected by
`get_schema_from_field_annotation` (schema.py lines 194-213): a pydantic
schema class, the none type, a generic alias over further annotations, or
anything else. -/
inductive FieldAnno where
  | schemaRef (s : SchemaId)
  | noneType
  | generic (args : List FieldAnno)
  | other

/-- The `while choices` queue of `get_schema_from_field_annotation`: pop the
front, enqueue a generic alias's arguments at the back, skip the none type
and non-schema elements, return the first schema class found. -/
def schema_from_args : List FieldAnno → Option SchemaId
  | [] => none
  | .generic args :: rest => schema_from_args (rest ++ args)
  | .noneType :: rest => schema_from_args rest
  | .schemaRef s :: _ => some s
  | .other :: rest => schema_from_args rest
termination_by l => (l.map sizeOf).sum
decreasing_by
  all_goals simp_wf
  have hlt : ∀ (l : List FieldAnno), (l.map sizeOf).sum < sizeOf l := by
    intro l
    induction l with
    | nil => simp
    | cons x xs ih =>
        simp only [List.map_cons, List.sum_cons, List.cons.sizeOf_spec]
        omega
  have h1 := hlt args
  omega

/-- `get_schema_from_field_annotation` (schema.py lines 194-213). -/
def get_schema_from_field_annotation (field : FieldAnno) : Option SchemaId :=
  match field with
  | .schemaRef s => some s
  | .generic args => schema_from_args args
  | .noneType => schema_from_args []
  | .other => schema_from_args []

/-- Modelled from the spec: the DTO returned by the schema builder's
`_get_info_from_schema_for_building` (schema_builder.py is not under
`src/`); per spec section 4.1 it partitions the declared schema's fields
into the attributes-only schema, the per-field schemas, the relationship
descriptors with their field annotations, and the declared model
validators. -/
structure BuilderDto where
  attributes_schema : AttrsSchema
  field_schemas : List (String × FieldSchema)
  relationships_info : List (String × (RelationshipInfo × FieldAnno))
  model_validators : List (String × ValidatorDecl)

/-- Modelled from the spec: the schema builder consumed by `add_resource`
(`builder._get_info_from_schema_for_building` and
`builder._build_jsonapi_object`; schema_builder.py is not under `src/`).
`dto_for` takes the base name, the source schema and the operation type;
`build_object` assembles the data schema for a resource type from a DTO. -/
structure BuilderEnv where
  dto_for : String → Option SchemaId → String → Option BuilderDto
  build_object : String → String → BuilderDto → DataSchema

/-- The two process-wide registries threaded through `add_resource`. -/
structure RegState where
  schemas : SchemasState
  models : ModelsState

/-- `SchemasStorage._init_resource_if_needed`. -/
def init_resource_if_needed (st : SchemasState) (resource_type : String) : SchemasState :=
  match alookup st.data resource_type with
  | some _ => st
  | none => { st with data := st.data ++ [(resource_type, ⟨[], []⟩)] }

/-- The `operation_type in self._data[resource_type]` membership test
(schemas_storage.py line 63). -/
def has_operation (st : SchemasState) (resource_type operation_type : String) : Bool :=
  match alookup st.data resource_type with
  | some entry => (alookup entry.ops operation_type).isSome
  | none => false

/-- `self._data[resource_type][operation_type] = {...}` (schemas_storage.py
lines 73-81). -/
def set_variant (st : SchemasState) (resource_type operation_type : String)
    (vs : VariantSet) : SchemasState :=
  match alookup st.data resource_type with
  | some entry =>
      let entry2 := { entry with ops := alistSet entry.ops operation_type vs }
      { st with data := alistSet st.data resource_type entry2 }
  | none =>
      { st with data := st.data ++ [(resource_type, ⟨[], [(operation_type, vs)]⟩)] }

/-- `self._registered_schemas.add(...)` (set insertion). -/
def registered_add (st : SchemasState) (x : Option SchemaId × String × String) :
    SchemasState :=
  if x ∈ st.registered_schemas then st
  else { st with registered_schemas := st.registered_schemas ++ [x] }

/-- `SchemasStorage.add_resource` (schemas_storage.py lines 50-119).  The
first argument is recursion fuel standing in for Python's unbounded
recursion.  After the idempotency guard the variant set is stored, the
source schema is recorded, the resource's model is fetched
(InternalServerError when absent), and each relationship whose
`(annotation schema, target type, "get")` triple is not yet registered is
processed: the related model is searched and then passed to
`models_storage.add_model` together with `info.id_field_name` — three
positional arguments against the two-parameter definition in
models_storage.py, a TypeError — after which the builder DTO and the
recursive registration of the target would follow. -/
def add_resource (benv : BuilderEnv) (menv : ModelEnv) :
    Nat → RegState → String → String → Option SchemaId → DataSchema → AttrsSchema →
    List (String × FieldSchema) → List (String × (RelationshipInfo × FieldAnno)) →
    List (String × ValidatorDecl) → Except PyErr RegState
  | 0, _, _, _, _, _, _, _, _, _ => .error .fuelExhausted
  | fuel + 1, st, resource_type, operation_type, source_schema, data_schema,
      attributes_schema, field_schemas, relationships_info, model_validators =>
      let sst := init_resource_if_needed st.schemas resource_type
      if has_operation sst resource_type operation_type then .ok { st with schemas := sst }
      else
        let before_validators :=
          (model_validators.filter (fun p => p.2.mode = "before")).map
            (fun p => (p.1, p.2.wrapped))
        let after_validators :=
          (model_validators.filter (fun p => ¬ (p.2.mode = "before"))).map
            (fun p => (p.1, p.2.wrapped))
        let vs : VariantSet :=
          { attrs_schema := attributes_schema
            field_schemas := field_schemas
            data_schema := data_schema
            relationships_info := relationships_info.map (fun p => (p.1, p.2.1))
            model_validators := (before_validators, after_validators) }
        let sst := set_variant sst resource_type operation_type vs
        let sst := registered_add sst (source_schema, resource_type, operation_type)
        match models_get_model st.models resource_type with
        | .error e => .error e
        | .ok model =>
            relationships_info.foldlM (fun st2 entry => do
              let relationship_name := entry.1
              let info := entry.2.1
              let field := entry.2.2
              let relationship_source_schema := get_schema_from_field_annotation field
              if (relationship_source_schema, info.resource_type, "get")
                  ∈ st2.schemas.registered_schemas then
                pure st2
              else do
                let relationship_model ←
                  search_relationship_model menv resource_type model relationship_name
                let models2 ← models_add_model st2.models
                  [.s info.resource_type, .m relationship_model, .s info.id_field_name]
                let st3 := { st2 with models := models2 }
                let dto ← match benv.dto_for (info.resource_type ++ "_hidden_generation")
                    relationship_source_schema "get" with
                  | some d => pure d
                  | none => (.error (.internalErr "builder dto") : Except PyErr BuilderDto)
                let data_schema2 := benv.build_object
                  (info.resource_type ++ "_hidden_generation_ObjectJSONAPI")
                  info.resource_type dto
                add_resource benv menv fuel st3 info.resource_type "get"
                  relationship_source_schema data_schema2 dto.attributes_schema
                  dto.field_schemas dto.relationships_info dto.model_validators)
              { st with schemas := sst }

/-! ## Statement helpers -/

/-- The Python name of an `HTTPMethod` member (`member.name`). -/
def HTTPMethod.memberName : HTTPMethod → String
  | .all => "ALL"
  | .get => "GET"
  | .post => "POST"
  | .patch => "PATCH"
  | .delete => "DELETE"

/-- The kwargs contributed by the `HTTPMethod.ALL` config alone: the value
of `dl_kwargs` just before the method-specific merge (view_base.py lines
118-120). -/
def all_kwargs (deps : List (HTTPMethod × HTTPMethodConfig)) (extra : ExtraDeps) : Kwargs :=
  match alookup deps .all with
  | some c => dict_update [] (handle_config c extra)
  | none => []

/-! ## Concrete fixtures used by the theorems below -/

/-- A field type that accepts any value unchanged. -/
def idCoerce : Coercer := fun v => .ok v

/-- A registered `get` variant for a plain `user` resource with one
declared attribute `name`. -/
def vsUserGet : VariantSet :=
  { attrs_schema := ⟨[("name", idCoerce)]⟩
    field_schemas := [("name", idCoerce)]
    data_schema := ⟨"user"⟩
    relationships_info := []
    model_validators := ([], []) }

/-- Schemas storage holding only the `user` `get` variant. -/
def sstUserOnly : SchemasState := ⟨[("user", ⟨[], [("get", vsUserGet)]⟩)], []⟩

/-- A `user` row with `id` and `name` attributes. -/
def entUser : Entity := .mk [("id", .vInt 1), ("name", .vStr "Bob")] []

/-- A registered `get` variant for a `monster` resource whose declared
identifier field is the custom `extra_id` column rather than `id`. -/
def vsMonsterGet : VariantSet :=
  { attrs_schema := ⟨[("name", idCoerce)]⟩
    field_schemas := [("name", idCoerce)]
    data_schema := ⟨"monster"⟩
    relationships_info := []
    model_validators := ([], []) }

/-- Schemas storage holding only the `monster` `get` variant. -/
def sstMonster : SchemasState := ⟨[("monster", ⟨[], [("get", vsMonsterGet)]⟩)], []⟩

/-- A `monster` row: the `id` column holds 1, the configured custom
identifier column `extra_id` holds 2. -/
def entMonster : Entity := .mk [("id", .vInt 1), ("extra_id", .vInt 2), ("name", .vStr "X")] []

/-- A `user` `get` variant with two to-one relationships `bio1`/`bio2`, both
targeting the `bio` resource type. -/
def vsUserRel : VariantSet :=
  { attrs_schema := ⟨[]⟩
    field_schemas := []
    data_schema := ⟨"user"⟩
    relationships_info := [("bio1", ⟨"bio", false, "id"⟩), ("bio2", ⟨"bio", false, "id"⟩)]
    model_validators := ([], []) }

/-- A `bio` `get` variant with attributes `title` and `rank`. -/
def vsBioGet : VariantSet :=
  { attrs_schema := ⟨[("title", idCoerce), ("rank", idCoerce)]⟩
    field_schemas := [("title", idCoerce), ("rank", idCoerce)]
    data_schema := ⟨"bio"⟩
    relationships_info := []
    model_validators := ([], []) }

/-- Schemas storage for the `user`/`bio` include fixtures. -/
def sstRel : SchemasState :=
  ⟨[("user", ⟨[], [("get", vsUserRel)]⟩), ("bio", ⟨[], [("get", vsBioGet)]⟩)], []⟩

/-- The shared `bio` row, reachable through both `bio1` and `bio2`. -/
def entBio : Entity := .mk [("id", .vInt 7), ("title", .vStr "t"), ("rank", .vStr "r")] []

/-- The `user` row whose two to-one relationships point at the same `bio`
row. -/
def entUserRel : Entity :=
  .mk [("id", .vInt 1)] [("bio1", .one (some entBio)), ("bio2", .one (some entBio))]

/-- The already-serialized root item for the include fixtures. -/
def rootItem : ItemData :=
  { id := "1", type_ := "user", attributes := [], relationships := none }

/-- An empty builder DTO for relationship targets with no fields. -/
def dtoEmpty : BuilderDto := ⟨⟨[]⟩, [], [], []⟩

/-- The `beta` builder DTO: `beta`'s schema relates back to `alpha` — the
declared relationship graph `alpha -> beta -> alpha` is cyclic. -/
def dtoBeta : BuilderDto :=
  ⟨⟨[]⟩, [], [("alpha", (⟨"alpha", true, "id"⟩, .schemaRef "AlphaSchema"))], []⟩

/-- Builder environment for the cyclic `alpha`/`beta` fixture. -/
def benvCyc : BuilderEnv :=
  ⟨fun _ s _ => if s = some "BetaSchema" then some dtoBeta else some dtoEmpty,
   fun _ rt _ => ⟨rt⟩⟩

/-- ORM relationships of the cyclic `alpha`/`beta` fixture. -/
def menvAB : ModelEnv :=
  ⟨fun m f =>
    if m = "AlphaModel" ∧ f = "beta" then some "BetaModel"
    else if m = "BetaModel" ∧ f = "alpha" then some "AlphaModel"
    else none⟩

/-- Fresh registries with only `alpha`'s model registered. -/
def regAB : RegState := ⟨⟨[], []⟩, ⟨[("alpha", "AlphaModel")]⟩⟩

/-- `alpha`'s declared relationships: one to-many relationship to `beta`. -/
def relsAlpha : List (String × (RelationshipInfo × FieldAnno)) :=
  [("beta", (⟨"beta", true, "id"⟩, .schemaRef "BetaSchema"))]

/-- ORM relationships of the `post`/`people` fixture. -/
def menvPost : ModelEnv :=
  ⟨fun m f => if m = "PostModel" ∧ f = "author" then some "PeopleModel" else none⟩

/-- Fresh registries with only `post`'s model registered. -/
def regPost : RegState := ⟨⟨[], []⟩, ⟨[("post", "PostModel")]⟩⟩

/-- `post`'s declared relationships: a to-one `author` targeting the not yet
registered `people` resource type. -/
def relsPost : List (String × (RelationshipInfo × FieldAnno)) :=
  [("author", (⟨"people", false, "id"⟩, .schemaRef "PeopleSchema"))]

/-- Registries in which `(user, get)` is already registered. -/
def regUser : RegState := ⟨sstUserOnly, ⟨[]⟩⟩

/-- Dependency config for `HTTPMethod.ALL`: contributes `session` and
`mode`. -/
def cfgAll10 : HTTPMethodConfig :=
  ⟨none, some (fun _ => [("session", .vStr "s"), ("mode", .vStr "all")])⟩

/-- Dependency config for `HTTPMethod.GET`: overrides `mode`. -/
def cfgGet10 : HTTPMethodConfig := ⟨none, some (fun _ => [("mode", .vStr "get")])⟩

/-- The per-method dependency table of the fixture view. -/
def deps10 : List (HTTPMethod × HTTPMethodConfig) := [(.all, cfgAll10), (.get, cfgGet10)]

/-! ## Helper lemmas -/

theorem alookup_eq_none_iff {α β : Type} [DecidableEq α] (l : List (α × β)) (key : α) :
    alookup l key = none ↔ key ∉ l.map Prod.fst := by
  induction l with
  | nil => simp [alookup]
  | cons p rest ih =>
      obtain ⟨k, v⟩ := p
      by_cases h : k = key
      · subst h
        simp [alookup]
      · simp only [alookup, h, if_false, List.map_cons, List.mem_cons, ih]
        constructor
        · intro hn hmem
          rcases hmem with hmem | hmem
          · exact h hmem.symm
          · exact hn hmem
        · intro hn hmem
          exact hn (Or.inr hmem)

theorem alookup_append_right_of_none {α β : Type} [DecidableEq α]
    (l l' : List (α × β)) (key : α) (h : alookup l key = none) :
    alookup (l ++ l') key = alookup l' key := by
  induction l with
  | nil => simp
  | cons p rest ih =>
      obtain ⟨k, v⟩ := p
      by_cases hk : k = key
      · simp [alookup, hk] at h
      · simp only [alookup, hk, if_false, List.cons_append] at h ⊢
        simp [alookup, hk]
        exact ih h

theorem alookup_append_left_of_some {α β : Type} [DecidableEq α]
    (l l' : List (α × β)) (key : α) {v : β} (h : alookup l key = some v) :
    alookup (l ++ l') key = some v := by
  induction l with
  | nil => simp [alookup] at h
  | cons p rest ih =>
      obtain ⟨k, w⟩ := p
      by_cases hk : k = key
      · simp [alookup, hk] at h ⊢
        exact h
      · simp only [alookup, hk, if_false, List.cons_append] at h ⊢
        simp [alookup, hk]
        exact ih h

theorem pyStartsWith_refl (s : String) : pyStartsWith s s = true := by
  simp [pyStartsWith, List.isPrefixOf_iff_prefix]

theorem pyStartsWith_trans {a b c : String}
    (h₁ : pyStartsWith b a = true) (h₂ : pyStartsWith c b = true) :
    pyStartsWith c a = true := by
  simp only [pyStartsWith, List.isPrefixOf_iff_prefix] at h₁ h₂ ⊢
  exact h₁.trans h₂

theorem include_retain_loop_subset (prev : String) (l : List String) :
    ∀ r ∈ include_retain_loop prev l, r ∈ prev :: l := by
  induction l generalizing prev with
  | nil => simp [include_retain_loop]
  | cons x xs ih =>
      intro r hr
      by_cases h : pyStartsWith x prev = true
      · rw [show include_retain_loop prev (x :: xs) = include_retain_loop x xs from by
          simp [include_retain_loop, h]] at hr
        have hm := ih x r hr
        rcases List.mem_cons.mp hm with h1 | h1
        · exact List.mem_cons.mpr (Or.inr (by simp [h1]))
        · exact List.mem_cons.mpr (Or.inr (by simp [h1]))
      · rw [show include_retain_loop prev (x :: xs) = prev :: include_retain_loop x xs from by
          simp [include_retain_loop, h]] at hr
        rcases List.mem_cons.mp hr with h1 | h1
        · exact List.mem_cons.mpr (Or.inl h1)
        · have hm := ih x r h1
          rcases List.mem_cons.mp hm with h2 | h2
          · exact List.mem_cons.mpr (Or.inr (by simp [h2]))
          · exact List.mem_cons.mpr (Or.inr (by simp [h2]))

theorem include_retain_loop_head_covered (prev : String) (l : List String) :
    ∃ r ∈ include_retain_loop prev l, pyStartsWith r prev = true := by
  induction l generalizing prev with
  | nil => exact ⟨prev, by simp [include_retain_loop], pyStartsWith_refl prev⟩
  | cons x xs ih =>
      by_cases h : pyStartsWith x prev = true
      · obtain ⟨r, hr, hrx⟩ := ih x
        exact ⟨r, by simp [include_retain_loop, h, hr], pyStartsWith_trans h hrx⟩
      · exact ⟨prev, by simp [include_retain_loop, h], pyStartsWith_refl prev⟩

theorem include_retain_loop_covers (prev : String) (l : List String) :
    ∀ p ∈ prev :: l, ∃ r ∈ include_retain_loop prev l, pyStartsWith r p = true := by
  induction l generalizing prev with
  | nil =>
      intro p hp
      simp only [List.mem_cons, List.not_mem_nil, or_false] at hp
      subst hp
      exact ⟨p, by simp [include_retain_loop], pyStartsWith_refl p⟩
  | cons x xs ih =>
      intro p hp
      rcases List.mem_cons.mp hp with hp | hp
      · subst hp
        by_cases h : pyStartsWith x p = true
        · obtain ⟨r, hr, hrx⟩ := include_retain_loop_head_covered x xs
          exact ⟨r, by simp [include_retain_loop, h, hr], pyStartsWith_trans h hrx⟩
        · exact ⟨p, by simp [include_retain_loop, h], pyStartsWith_refl p⟩
      · obtain ⟨r, hr, hrx⟩ := ih x p hp
        by_cases h : pyStartsWith x prev = true
        · exact ⟨r, by simp [include_retain_loop, h, hr], hrx⟩
        · exact ⟨r, by simp [include_retain_loop, h, hr], hrx⟩

theorem alookup_alistSet_self {α β : Type} [DecidableEq α] (l : List (α × β)) (k : α) (v : β) :
    alookup (alistSet l k v) k = some v := by
  induction l with
  | nil => simp [alistSet, alookup]
  | cons p rest ih =>
      obtain ⟨a, b⟩ := p
      by_cases h : a = k
      · simp [alistSet, h, alookup]
      · simp [alistSet, h, alookup, ih]

theorem alookup_alistSet_ne {α β : Type} [DecidableEq α] (l : List (α × β)) (k k2 : α) (v : β)
    (h : k2 ≠ k) : alookup (alistSet l k v) k2 = alookup l k2 := by
  induction l with
  | nil => simp [alistSet, alookup, Ne.symm h]
  | cons p rest ih =>
      obtain ⟨a, b⟩ := p
      by_cases ha : a = k
      · subst ha
        simp [alistSet, alookup, Ne.symm h]
      · simp only [alistSet, ha, if_false]
        by_cases hb : a = k2
        · simp [alookup, hb]
        · simp [alookup, hb, ih]

theorem alookup_dict_update_not_mem (a b : Kwargs) (k : String)
    (h : k ∉ b.map Prod.fst) : alookup (dict_update a b) k = alookup a k := by
  induction b generalizing a with
  | nil => rfl
  | cons kv rest ih =>
      simp only [List.map_cons, List.mem_cons] at h
      push_neg at h
      rw [show dict_update a (kv :: rest) = dict_update (alistSet a kv.1 kv.2) rest from rfl]
      rw [ih _ h.2, alookup_alistSet_ne _ _ _ _ h.1]

theorem alookup_dict_update_mem (a b : Kwargs) (k : String) (v : Value)
    (hnd : (b.map Prod.fst).Nodup) (h : alookup b k = some v) :
    alookup (dict_update a b) k = some v := by
  induction b generalizing a with
  | nil => simp [alookup] at h
  | cons kv rest ih =>
      obtain ⟨k1, v1⟩ := kv
      simp only [List.map_cons, List.nodup_cons] at hnd
      by_cases hk : k1 = k
      · subst hk
        simp only [alookup, if_pos rfl] at h
        rw [show dict_update a ((k1, v1) :: rest) = dict_update (alistSet a k1 v1) rest from rfl]
        rw [alookup_dict_update_not_mem _ _ _ hnd.1, alookup_alistSet_self]
        exact h
      · have h2 : alookup rest k = some v := by simpa [alookup, hk] using h
        rw [show dict_update a ((k1, v1) :: rest) = dict_update (alistSet a k1 v1) rest from rfl]
        exact ih _ hnd.2 h2

theorem heap_init_rels_included (st : IncludedState) (r : Nat) :
    (heap_init_rels st r).included = st.included := rfl

theorem heap_set_rel_included (st : IncludedState) (r : Nat) (t : String) (l : Linkage) :
    (heap_set_rel st r t l).included = st.included := rfl

theorem list_modify_length {α : Type} (l : List α) (n : Nat) (f : α → α) :
    (list_modify l n f).length = l.length := by
  induction l generalizing n with
  | nil => rfl
  | cons x xs ih =>
      cases n with
      | zero => rfl
      | succ m => simp [list_modify, ih]

theorem heap_init_rels_heap_length (st : IncludedState) (r : Nat) :
    (heap_init_rels st r).heap.length = st.heap.length := by
  simp [heap_init_rels, list_modify_length]

theorem list_modify_getElem_ne {α : Type} (l : List α) (n m : Nat) (f : α → α)
    (h : n ≠ m) : (list_modify l n f)[m]? = l[m]? := by
  induction l generalizing n m with
  | nil => rfl
  | cons x xs ih =>
      cases n with
      | zero =>
          cases m with
          | zero => exact absurd rfl h
          | succ m2 => simp [list_modify]
      | succ n2 =>
          cases m with
          | zero => simp [list_modify]
          | succ m2 =>
              simp only [list_modify]
              have hne : n2 ≠ m2 := fun hh => h (by rw [hh])
              simp [ih n2 m2 hne]

theorem getElem_append_len {α : Type} (l : List α) (d : α) (l2 : List α) :
    (l ++ d :: l2)[l.length]? = some d := by
  induction l with
  | nil => simp
  | cons x xs ih => simpa using ih

/-- Generic invariant preservation along `List.foldlM` in the `Except`
monad. -/
theorem foldlM_except_preserve {α σ : Type} (P : σ → Prop) (f : σ → α → Except PyErr σ)
    (hf : ∀ s a s2, f s a = .ok s2 → P s → P s2) :
    ∀ (l : List α) (s s2 : σ), List.foldlM f s l = .ok s2 → P s → P s2 := by
  intro l
  induction l with
  | nil =>
      intro s s2 h hp
      simp only [List.foldlM, pure, Except.pure] at h
      cases h
      exact hp
  | cons x xs ih =>
      intro s s2 h hp
      simp only [List.foldlM] at h
      cases hfx : f s x with
      | error e => rw [hfx] at h; simp [Bind.bind, Except.bind] at h
      | ok s1 =>
          rw [hfx] at h
          simp only [Bind.bind, Except.bind] at h
          exact ih s1 s2 h (hf s x s1 hfx hp)

theorem nodup_keys_append_new {α β : Type} [DecidableEq α] (l : List (α × β)) (key : α) (v : β)
    (hnd : (l.map Prod.fst).Nodup) (habs : alookup l key = none) :
    ((l ++ [(key, v)]).map Prod.fst).Nodup := by
  rw [List.map_append]
  refine List.Nodup.append hnd (List.nodup_singleton key) ?_
  intro a ha hb
  simp only [List.map_cons, List.map_nil, List.mem_singleton] at hb
  subst hb
  exact (alookup_eq_none_iff l a).mp habs ha

theorem lookup_or_serialize_nodup (sst : SchemasState) (fo : Option IncludeFieldsMap)
    (child : Entity) (ct : String) (key : String × String) (st st2 : IncludedState) (ref : Nat)
    (h : lookup_or_serialize sst fo child ct key st = .ok (st2, ref))
    (hnd : (st.included.map Prod.fst).Nodup) :
    (st2.included.map Prod.fst).Nodup := by
  unfold lookup_or_serialize at h
  cases hl : alookup st.included key with
  | some r0 =>
      rw [hl] at h
      cases h
      exact hnd
  | none =>
      rw [hl] at h
      cases hp : prepare_item_data sst child ct fo with
      | error e => rw [hp] at h; simp at h
      | ok d =>
          rw [hp] at h
          cases h
          exact nodup_keys_append_new st.included key st.heap.length hnd hl

theorem process_children_nodup (sst : SchemasState) (fields : IncludeFieldsMap)
    (info : RelationshipInfo) :
    ∀ (children : List Entity) (st st2 : IncludedState) (pairs : List (Entity × Nat))
      (links : List (String × String)),
      process_children sst fields info children st = .ok (st2, pairs, links) →
      (st.included.map Prod.fst).Nodup → (st2.included.map Prod.fst).Nodup := by
  intro children
  induction children with
  | nil =>
      intro st st2 pairs links h hnd
      simp only [process_children] at h
      cases h
      exact hnd
  | cons c cs ih =>
      intro st st2 pairs links h hnd
      simp only [process_children] at h
      cases hid : pyAttr c info.id_field_name with
      | error e => simp only [hid] at h; exact absurd h (by simp)
      | ok idv =>
          simp only [hid] at h
          cases hls : lookup_or_serialize sst (some fields) c info.resource_type
              (info.resource_type, idv.toStr) st with
          | error e => simp only [hls] at h; exact absurd h (by simp)
          | ok pr =>
              obtain ⟨st1, ref⟩ := pr
              simp only [hls] at h
              cases hpc : process_children sst fields info cs st1 with
              | error e => simp only [hpc] at h; exact absurd h (by simp)
              | ok tr =>
                  obtain ⟨stF, pairsF, linksF⟩ := tr
                  simp only [hpc] at h
                  cases h
                  have hnd1 := lookup_or_serialize_nodup sst (some fields) c info.resource_type
                    (info.resource_type, idv.toStr) st st1 ref hls hnd
                  exact ih st1 _ _ _ hpc hnd1

theorem process_includes_path_nodup (sst : SchemasState) (fields : IncludeFieldsMap) :
    ∀ (fuel : Nat) (rt : String) (path : List String) (items : List (Entity × Nat))
      (st st2 : IncludedState),
      process_includes_path sst fields fuel rt path items st = .ok st2 →
      (st.included.map Prod.fst).Nodup → (st2.included.map Prod.fst).Nodup := by
  intro fuel
  induction fuel with
  | zero =>
      intro rt path items st st2 h
      simp [process_includes_path] at h
  | succ fuel ih =>
      intro rt path items st st2 h hnd
      cases items with
      | nil =>
          simp only [process_includes_path] at h
          cases h
          exact hnd
      | cons er more =>
          obtain ⟨e, r⟩ := er
          cases path with
          | nil =>
              simp only [process_includes_path] at h
              exact absurd h (by simp)
          | cons target tail =>
              simp only [process_includes_path] at h
              cases hrel : get_relationship sst rt "get" target with
              | error err => simp only [hrel] at h; exact absurd h (by simp)
              | ok oinfo =>
                  simp only [hrel] at h
                  cases oinfo with
                  | none => exact absurd h (by simp)
                  | some info =>
                      have hnd0 : (((heap_init_rels st r).included).map Prod.fst).Nodup := by
                        rw [heap_init_rels_included]
                        exact hnd
                      cases hmany : info.many with
                      | true =>
                          simp only [hmany, eq_self_iff_true, if_true] at h
                          cases hrv : e.relAttr target with
                          | none => simp only [hrv] at h; exact absurd h (by simp)
                          | some rv =>
                              simp only [hrv] at h
                              cases rv with
                              | one o => exact absurd h (by simp)
                              | many children =>
                                  cases hpc : process_children sst fields info children
                                      (heap_init_rels st r) with
                                  | error err => simp only [hpc] at h; exact absurd h (by simp)
                                  | ok tr =>
                                      obtain ⟨stPC, pairs, links⟩ := tr
                                      simp only [hpc] at h
                                      have hnd2 := process_children_nodup sst fields info children
                                        (heap_init_rels st r) stPC pairs links hpc hnd0
                                      cases hte : tail.isEmpty with
                                      | true =>
                                          simp only [hte, eq_self_iff_true, if_true] at h
                                          have hnd3 : (((heap_set_rel stPC r target
                                              (.many links)).included).map Prod.fst).Nodup := by
                                            rw [heap_set_rel_included]
                                            exact hnd2
                                          exact ih rt (target :: tail) more _ st2 h hnd3
                                      | false =>
                                          simp only [hte] at h
                                          cases hd : process_includes_path sst fields fuel
                                              info.resource_type tail pairs stPC with
                                          | error err =>
                                              simp only [hd] at h
                                              exact absurd h (by simp)
                                          | ok st3 =>
                                              simp only [hd] at h
                                              have hnd3 := ih info.resource_type tail pairs stPC
                                                st3 hd hnd2
                                              have hnd4 : (((heap_set_rel st3 r target
                                                  (.many links)).included).map Prod.fst).Nodup := by
                                                rw [heap_set_rel_included]
                                                exact hnd3
                                              exact ih rt (target :: tail) more _ st2 h hnd4
                      | false =>
                          simp only [hmany] at h
                          cases hrv : e.relAttr target with
                          | none => simp only [hrv] at h; exact absurd h (by simp)
                          | some rv =>
                              simp only [hrv] at h
                              cases rv with
                              | many children => exact absurd h (by simp)
                              | one o =>
                                  cases o with
                                  | none =>
                                      have hnd3 : (((heap_set_rel (heap_init_rels st r) r target
                                          .nullData).included).map Prod.fst).Nodup := by
                                        rw [heap_set_rel_included, heap_init_rels_included]
                                        exact hnd
                                      exact ih rt (target :: tail) more _ st2 h hnd3
                                  | some child =>
                                      cases hid : pyAttr child info.id_field_name with
                                      | error err =>
                                          simp only [hid] at h
                                          exact absurd h (by simp)
                                      | ok idv =>
                                          simp only [hid] at h
                                          cases hls : lookup_or_serialize sst none child
                                              info.resource_type
                                              (info.resource_type, idv.toStr)
                                              (heap_init_rels st r) with
                                          | error err =>
                                              simp only [hls] at h
                                              exact absurd h (by simp)
                                          | ok pr =>
                                              obtain ⟨stLS, ref⟩ := pr
                                              simp only [hls] at h
                                              have hnd2 := lookup_or_serialize_nodup sst none child
                                                info.resource_type
                                                (info.resource_type, idv.toStr)
                                                (heap_init_rels st r) stLS ref hls hnd0
                                              cases hte : tail.isEmpty with
                                              | true =>
                                                  simp only [hte, eq_self_iff_true, if_true] at h
                                                  have hnd3 : (((heap_set_rel stLS r target
                                                      (.one idv.toStr info.resource_type)).included).map
                                                      Prod.fst).Nodup := by
                                                    rw [heap_set_rel_included]
                                                    exact hnd2
                                                  exact ih rt (target :: tail) more _ st2 h hnd3
                                              | false =>
                                                  simp only [hte] at h
                                                  cases hd : process_includes_path sst fields fuel
                                                      info.resource_type tail [(child, ref)]
                                                      stLS with
                                                  | error err =>
                                                      simp only [hd] at h
                                                      exact absurd h (by simp)
                                                  | ok st3 =>
                                                      simp only [hd] at h
                                                      have hnd3 := ih info.resource_type tail
                                                        [(child, ref)] stLS st3 hd hnd2
                                                      have hnd4 : (((heap_set_rel st3 r target
                                                          (.one idv.toStr
                                                            info.resource_type)).included).map
                                                          Prod.fst).Nodup := by
                                                        rw [heap_set_rel_included]
                                                        exact hnd3
                                                      exact ih rt (target :: tail) more _ st2 h hnd4

/-! ## Claim theorems -/

/-- C1: for every include expansion (detail or list), whenever the same
related entity — identified by its `(resource_type, id)` pair — is reachable
via two different include paths or from two different root entities, the
accumulated `included` collection holds at most one serialized entry per
`(resource_type, id)` key: `_process_includes` threads one map keyed by
`(resource_type, id)` through all recursion levels and serializes an entity
only when its key is absent, so the key list stays duplicate-free. -/
theorem claim_C1_included_dedup (sst : SchemasState) (fields : IncludeFieldsMap)
    (fuel : Nat) (resource_type : String) (items : List (Entity × Nat))
    (include_paths : List (List String)) (st st2 : IncludedState)
    (h : process_includes sst fields fuel resource_type items include_paths st = .ok st2)
    (hnd : (st.included.map Prod.fst).Nodup) :
    (st2.included.map Prod.fst).Nodup := by
  unfold process_includes at h
  refine foldlM_except_preserve (fun s => (s.included.map Prod.fst).Nodup) _ ?_ items st st2 h hnd
  intro s a s2 hfold hp
  refine foldlM_except_preserve (fun s => (s.included.map Prod.fst).Nodup) _ ?_
    include_paths s s2 hfold hp
  intro s3 p s4 hh hp2
  exact process_includes_path_nodup sst fields fuel resource_type p [a] s3 s4 hh hp2

/-- C1 witness: a detail response for a `user` whose two to-one
relationships `bio1` and `bio2` reach the same `bio` row; after expanding
both include paths the `included` map holds exactly one key, `("bio", "7")`,
and its key list is duplicate-free. -/
theorem claim_C1_witness :
    ((⟨[{ id := "1", type_ := "user", attributes := [],
           relationships := some [("bio1", .one "7" "bio"), ("bio2", .one "7" "bio")] },
         { id := "7", type_ := "bio",
           attributes := [("title", .vStr "t"), ("rank", .vStr "r")],
           relationships := none }],
        [(("bio", "7"), 1)]⟩ : IncludedState).included.map Prod.fst).Nodup :=
  claim_C1_included_dedup sstRel [] 10 "user" [(entUserRel, 0)] [["bio1"], ["bio2"]]
    ⟨[rootItem], []⟩
    ⟨[{ id := "1", type_ := "user", attributes := [],
        relationships := some [("bio1", .one "7" "bio"), ("bio2", .one "7" "bio")] },
      { id := "7", type_ := "bio",
        attributes := [("title", .vStr "t"), ("rank", .vStr "r")],
        relationships := none }],
     [(("bio", "7"), 1)]⟩ rfl (by simp)

/-- C7 counterexample: a request carrying the sparse fieldset
`fields[bio]=title` whose to-one include `bio1` serializes the related `bio`
row into `included` with BOTH of its attributes `title` and `rank` — the
to-one branch of `_process_includes` (view_base.py line 253) calls
`_prepare_item_data` without the `include_fields` argument, so the fieldset
for the included type is ignored, refuting the claim as stated. -/
theorem claim_C7_counterexample :
    process_includes sstRel [("bio", [("title", some idCoerce)])] 10 "user"
      [(entUserRel, 0)] [["bio1"]] ⟨[rootItem], []⟩ =
      .ok ⟨[{ id := "1", type_ := "user", attributes := [],
              relationships := some [("bio1", .one "7" "bio")] },
            { id := "7", type_ := "bio",
              attributes := [("title", .vStr "t"), ("rank", .vStr "r")],
              relationships := none }],
           [(("bio", "7"), 1)]⟩ ∧
    "rank" ∈ ([("title", Value.vStr "t"), ("rank", Value.vStr "r")].map Prod.fst) ∧
    ((([("title", some idCoerce)] : List (String × Option FieldSchema)).map Prod.fst).contains
      "rank") = false :=
  ⟨rfl, by simp, by decide⟩

/-- C7 (amended): a related entity included via a to-many relationship is
serialized with the requested `include_fields` passed through, but a related
entity included via a to-one relationship is serialized by
`_prepare_item_data` with no `include_fields` argument at all: whatever
sparse fieldsets `fields` carries, the entry inserted into `included` is
exactly the full-attributes serialization `prepare_item_data ... none`. -/
theorem claim_C7_toone_full_attributes
    (sst : SchemasState) (fields : IncludeFieldsMap) (fuel : Nat) (rt target : String)
    (info : RelationshipInfo) (e child : Entity) (r : Nat) (st : IncludedState)
    (idv : Value) (d : ItemData)
    (hinfo : get_relationship sst rt "get" target = .ok (some info))
    (hone : info.many = false)
    (hrel : e.relAttr target = some (.one (some child)))
    (hid : pyAttr child info.id_field_name = .ok idv)
    (habs : alookup st.included (info.resource_type, idv.toStr) = none)
    (hser : prepare_item_data sst child info.resource_type none = .ok d)
    (hr : r < st.heap.length) :
    ∃ st2, process_includes_path sst fields (fuel + 2) rt [target] [(e, r)] st = .ok st2 ∧
      alookup st2.included (info.resource_type, idv.toStr) = some st.heap.length ∧
      st2.heap[st.heap.length]? = some d := by
  have hls : lookup_or_serialize sst none child info.resource_type
      (info.resource_type, idv.toStr) (heap_init_rels st r) =
      .ok (⟨(heap_init_rels st r).heap ++ [d],
            st.included ++ [((info.resource_type, idv.toStr), st.heap.length)]⟩,
           st.heap.length) := by
    unfold lookup_or_serialize
    rw [heap_init_rels_included, habs, hser, heap_init_rels_heap_length]
  refine ⟨heap_set_rel
      ⟨(heap_init_rels st r).heap ++ [d],
       st.included ++ [((info.resource_type, idv.toStr), st.heap.length)]⟩
      r target (.one idv.toStr info.resource_type), ?_, ?_, ?_⟩
  · simp only [process_includes_path, hinfo, hone, hrel, hid, hls, List.isEmpty_nil,
      eq_self_iff_true, if_true]
    rfl
  · rw [heap_set_rel_included]
    show alookup (st.included ++ [((info.resource_type, idv.toStr), st.heap.length)])
      (info.resource_type, idv.toStr) = some st.heap.length
    rw [alookup_append_right_of_none _ _ _ habs]
    simp [alookup]
  · show (heap_set_rel _ r target _).heap[st.heap.length]? = some d
    unfold heap_set_rel
    rw [list_modify_getElem_ne _ _ _ _ (Nat.ne_of_lt hr)]
    show ((heap_init_rels st r).heap ++ [d])[st.heap.length]? = some d
    have hlen : (heap_init_rels st r).heap.length = st.heap.length :=
      heap_init_rels_heap_length st r
    rw [← hlen]
    exact getElem_append_len _ d []

/-- C7 witness for the amended statement: the `user`/`bio` fixture with the
sparse fieldset `fields[bio]=title`; the to-one include inserts the full
two-attribute `bio` serialization at heap address 1. -/
theorem claim_C7_witness :
    ∃ st2, process_includes_path sstRel [("bio", [("title", some idCoerce)])] (0 + 2) "user"
        ["bio1"] [(entUserRel, 0)] ⟨[rootItem], []⟩ = .ok st2 ∧
      alookup st2.included ("bio", (Value.vInt 7).toStr) = some 1 ∧
      st2.heap[(1 : Nat)]? = some
        { id := "7", type_ := "bio",
          attributes := [("title", Value.vStr "t"), ("rank", Value.vStr "r")],
          relationships := none } := by
  have h := claim_C7_toone_full_attributes sstRel [("bio", [("title", some idCoerce)])] 0
    "user" "bio1" ⟨"bio", false, "id"⟩ entUserRel entBio 0 ⟨[rootItem], []⟩ (Value.vInt 7)
    { id := "7", type_ := "bio",
      attributes := [("title", Value.vStr "t"), ("rank", Value.vStr "r")],
      relationships := none }
    rfl rfl rfl rfl rfl rfl (by decide)
  exact h

/-- C2: registering the cyclic `alpha -> beta -> alpha` fixture does not
produce the variant sets: the first unregistered relationship target makes
`add_resource` call `models_storage.add_model` with three positional
arguments (schemas_storage.py line 94) against the two-parameter definition
(models_storage.py lines 17-18), so the build raises TypeError before any
recursive registration. -/
theorem claim_C2_cyclic_build_typeerror :
    add_resource benvCyc menvAB 5 regAB "alpha" "get" (some "AlphaSchema") ⟨"alpha"⟩ ⟨[]⟩
      [] relsAlpha [] = .error (.typeError "add_model takes 3 positional arguments") := rfl

/-- C3: registering `post`, whose `author` relationship targets the not yet
registered `people` type, raises the same TypeError at the
`models_storage.add_model` call instead of recursively registering the
target's model and `get` variant — the promised invariant is never
established for unregistered targets. -/
theorem claim_C3_target_registration_typeerror :
    add_resource benvCyc menvPost 5 regPost "post" "get" (some "PostSchema") ⟨"post"⟩ ⟨[]⟩
      [] relsPost [] = .error (.typeError "add_model takes 3 positional arguments") ∧
    has_operation regPost.schemas "people" "get" = false :=
  ⟨rfl, rfl⟩

/-- C4: when `(resource_type, operation_type)` is already registered,
`add_resource` returns at the guard (schemas_storage.py lines 62-64), before
any write: the whole registry state — variant set, registered schemas and
models storage — is returned unchanged. -/
theorem claim_C4_add_resource_idempotent (benv : BuilderEnv) (menv : ModelEnv) (fuel : Nat)
    (st : RegState) (resource_type operation_type : String) (source_schema : Option SchemaId)
    (data_schema : DataSchema) (attributes_schema : AttrsSchema)
    (field_schemas : List (String × FieldSchema))
    (relationships_info : List (String × (RelationshipInfo × FieldAnno)))
    (model_validators : List (String × ValidatorDecl))
    (h : has_operation st.schemas resource_type operation_type = true) :
    add_resource benv menv (fuel + 1) st resource_type operation_type source_schema
      data_schema attributes_schema field_schemas relationships_info model_validators =
      .ok st := by
  have hrt : ∃ entry, alookup st.schemas.data resource_type = some entry := by
    unfold has_operation at h
    cases he : alookup st.schemas.data resource_type with
    | none => rw [he] at h; simp at h
    | some entry => exact ⟨entry, rfl⟩
  obtain ⟨entry, he⟩ := hrt
  have hinit : init_resource_if_needed st.schemas resource_type = st.schemas := by
    unfold init_resource_if_needed
    rw [he]
  simp only [add_resource, hinit, h, eq_self_iff_true, if_true]

/-- C4 witness: re-registering the already-registered `(user, get)` pair
leaves the registries untouched. -/
theorem claim_C4_witness :
    add_resource benvCyc menvAB (4 + 1) regUser "user" "get" (some "UserSchema") ⟨"user"⟩
      ⟨[]⟩ [] [] [] = .ok regUser :=
  claim_C4_add_resource_idempotent benvCyc menvAB 4 regUser "user" "get" (some "UserSchema")
    ⟨"user"⟩ ⟨[]⟩ [] [] [] rfl

/-- C5: any sparse-fieldset request dies instead of serializing: with the
empty-string selector (which should yield `attributes: {}`) and with a named
selector alike, `_prepare_item_data` reaches
`models_storage.get_object_id(db_item, resource_type)` (view_base.py line
170) and raises AttributeError because `ModelsStorage` defines no such
method; only the absent-selector branch works, serializing all declared
attributes. -/
theorem claim_C5_sparse_fieldset_crash :
    prepare_item_data sstUserOnly entUser "user" (some [("user", [("", none)])]) =
      .error (.attributeError "ModelsStorage object has no attribute get_object_id") ∧
    prepare_item_data sstUserOnly entUser "user" (some [("user", [("name", some idCoerce)])]) =
      .error (.attributeError "ModelsStorage object has no attribute get_object_id") ∧
    prepare_item_data sstUserOnly entUser "user" none =
      .ok { id := "1", type_ := "user", attributes := [("name", Value.vStr "Bob")],
            relationships := none } :=
  ⟨rfl, rfl, rfl⟩

/-- C8: for a resource whose configured identifier is the custom `extra_id`
column (value 2), the serialized `data.id` without sparse fieldsets is the
string of the literal `id` attribute (`"1"`, view_base.py line 141), not the
configured identifier (`"2"`); and the sparse-fieldset path, which is the
one that consults the configured identifier via
`models_storage.get_object_id`, raises AttributeError since that method does
not exist. -/
theorem claim_C8_custom_id_ignored :
    prepare_item_data sstMonster entMonster "monster" none =
      .ok { id := "1", type_ := "monster", attributes := [("name", Value.vStr "X")],
            relationships := none } ∧
    (entMonster.attr "extra_id").map Value.toStr = some "2" ∧
    (("1" : String) == "2") = false ∧
    prepare_item_data sstMonster entMonster "monster"
        (some [("monster", [("name", some idCoerce)])]) =
      .error (.attributeError "ModelsStorage object has no attribute get_object_id") :=
  ⟨rfl, rfl, rfl, rfl⟩

theorem mem_insort (s a : String) (l : List String) : a ∈ insort s l ↔ a = s ∨ a ∈ l := by
  induction l with
  | nil => simp [insort]
  | cons x xs ih =>
      cases h : pyStrLe s x with
      | true => simp [insort, h]
      | false =>
          simp only [insort, h, Bool.false_eq_true, if_false, List.mem_cons, ih]
          tauto

theorem mem_pySortStrings (a : String) (l : List String) :
    a ∈ pySortStrings l ↔ a ∈ l := by
  induction l with
  | nil => simp [pySortStrings]
  | cons x xs ih =>
      simp only [pySortStrings, mem_insort, List.mem_cons, ih]

/-- C6 counterexample: for `include=alpha,alphabet` the grouping retains
only `alphabet`: the requested include `alpha` — a distinct top-level
relationship — is dropped because `"alphabet".startswith("alpha")` is true
as a string test even though `alpha` is not a dot-segment prefix of
`alphabet`, refuting the claim as stated. -/
theorem claim_C6_counterexample :
    prepare_include_params ["alpha", "alphabet"] = .ok [["alphabet"]] ∧
    "alpha" ∈ (["alpha", "alphabet"] : List String) ∧
    ([["alphabet"]].contains ["alpha"]) = false ∧
    (List.isPrefixOf ["alpha"] ["alphabet"]) = false :=
  ⟨rfl, by decide, by decide, by decide⟩

/-- C6 (amended): `_prepare_include_params` retains a subset of the
requested include strings, and every requested include string is a STRING
prefix of some retained one (so its data is still loaded as part of a longer
retained path when the extension passes through a dot); but a requested path
that another request string-extends without a dot separator — in particular
a distinct top-level relationship name like `alpha` next to `alphabet` — is
dropped and is then covered only in the string sense, not as a dot-segment
group member. -/
theorem claim_C6_include_grouping (includes : List String) (result : List (List String))
    (h : prepare_include_params includes = .ok result) :
    (∀ r ∈ result, ∃ s ∈ includes, r = pySplitDot s) ∧
    (∀ p ∈ includes, ∃ s, pyStartsWith s p = true ∧ pySplitDot s ∈ result) := by
  unfold prepare_include_params at h
  cases hs : pySortStrings includes with
  | nil => rw [hs] at h; exact absurd h (by simp)
  | cons first rest =>
      rw [hs] at h
      simp only [Except.ok.injEq] at h
      subst h
      constructor
      · intro r hr
        obtain ⟨s, hsl, hrs⟩ := List.mem_map.mp hr
        have hs1 : s ∈ first :: rest := include_retain_loop_subset first rest s hsl
        have hs2 : s ∈ includes := by
          have hmem : s ∈ pySortStrings includes := by
            rw [hs]
            exact hs1
          exact (mem_pySortStrings s includes).mp hmem
        exact ⟨s, hs2, hrs.symm⟩
      · intro p hp
        have hp2 : p ∈ first :: rest := by
          rw [← hs]
          exact (mem_pySortStrings p includes).mpr hp
        obtain ⟨s, hsl, hsw⟩ := include_retain_loop_covers first rest p hp2
        exact ⟨s, hsw, List.mem_map.mpr ⟨s, hsl, rfl⟩⟩

/-- C6 witness: for `include=user.bio,user,posts` the retained paths are
`posts` and `user.bio`; every requested include is a string-prefix of a
retained one and every retained path was requested. -/
theorem claim_C6_witness :
    (∀ r ∈ ([["posts"], ["user", "bio"]] : List (List String)),
      ∃ s ∈ (["user.bio", "user", "posts"] : List String), r = pySplitDot s) ∧
    (∀ p ∈ (["user.bio", "user", "posts"] : List String),
      ∃ s, pyStartsWith s p = true ∧ pySplitDot s ∈ ([["posts"], ["user", "bio"]] : List (List String))) :=
  claim_C6_include_grouping ["user.bio", "user", "posts"] [["posts"], ["user", "bio"]] rfl

/-- C9 counterexample: a per-field lookup with an absent key does not fail
at all: `get_field_schema` uses `.get` on the field name and returns `None`
for the registered `(user, get)` pair and the unknown field `email`,
refuting the claim that every absent-key registry lookup raises an
internal-server error. -/
theorem claim_C9_counterexample :
    get_field_schema sstUserOnly "user" "get" "email" = .ok none := rfl

/-- C9 (amended): only the models-storage lookup converts an absent key into
an internal-server error; the schemas-storage getters raise a bare KeyError
when the resource type (or operation type) is not registered, and
`get_field_schema` / `get_relationship` return `None` without any error when
only the field name is absent. -/
theorem claim_C9_lookup_misses (st : SchemasState) (mst : ModelsState)
    (resource_type operation_type field_name : String) (entry : ResourceEntry)
    (vs : VariantSet) :
    (alookup mst.data resource_type = none →
      models_get_model mst resource_type =
        .error (.internalServerError ("Not found model for resource_type " ++ resource_type))) ∧
    (alookup st.data resource_type = none →
      get_field_schema st resource_type operation_type field_name =
        .error (.keyError resource_type)) ∧
    (alookup st.data resource_type = some entry →
      alookup entry.ops operation_type = some vs →
      alookup vs.field_schemas field_name = none →
      get_field_schema st resource_type operation_type field_name = .ok none) ∧
    (alookup st.data resource_type = some entry →
      alookup entry.ops operation_type = some vs →
      alookup vs.relationships_info field_name = none →
      get_relationship st resource_type operation_type field_name = .ok none) := by
  refine ⟨?_, ?_, ?_, ?_⟩
  · intro h
    unfold models_get_model
    rw [h]
  · intro h
    unfold get_field_schema storage_variant
    rw [h]
    rfl
  · intro h1 h2 h3
    unfold get_field_schema storage_variant
    simp only [h1, h2, Bind.bind, Except.bind]
    rw [h3]
  · intro h1 h2 h3
    unfold get_relationship storage_variant
    simp only [h1, h2, Bind.bind, Except.bind]
    rw [h3]

/-- C9 witness: all four lookup-miss behaviors on concrete storages: an
unregistered model raises an internal-server error, an unregistered resource
type raises KeyError, and an absent field name or relationship name yields
`None` with no error. -/
theorem claim_C9_witness :
    models_get_model ⟨[]⟩ "user" =
      .error (.internalServerError "Not found model for resource_type user") ∧
    get_field_schema sstUserOnly "nosuch" "get" "name" = .error (.keyError "nosuch") ∧
    get_field_schema sstUserOnly "user" "get" "phone" = .ok none ∧
    get_relationship sstUserOnly "user" "get" "boss" = .ok none := by
  refine ⟨?_, ?_, ?_, ?_⟩
  · exact (claim_C9_lookup_misses sstUserOnly ⟨[]⟩ "user" "get" "name" ⟨[], []⟩
      vsUserGet).1 rfl
  · exact (claim_C9_lookup_misses sstUserOnly ⟨[]⟩ "nosuch" "get" "name" ⟨[], []⟩
      vsUserGet).2.1 rfl
  · exact (claim_C9_lookup_misses sstUserOnly ⟨[]⟩ "user" "get" "phone"
      ⟨[], [("get", vsUserGet)]⟩ vsUserGet).2.2.1 rfl rfl rfl
  · exact (claim_C9_lookup_misses sstUserOnly ⟨[]⟩ "user" "get" "boss"
      ⟨[], [("get", vsUserGet)]⟩ vsUserGet).2.2.2 rfl rfl rfl


theorem alookup_dict_update_eq (b : Kwargs) : ∀ (a : Kwargs) (k : String),
    alookup (dict_update a b) k =
      (match alookup b.reverse k with
       | some v => some v
       | none => alookup a k) := by
  induction b with
  | nil =>
      intro a k
      simp [dict_update, alookup]
  | cons kv rest ih =>
      intro a k
      obtain ⟨k1, v1⟩ := kv
      rw [show dict_update a ((k1, v1) :: rest) = dict_update (alistSet a k1 v1) rest from rfl]
      rw [ih (alistSet a k1 v1) k, List.reverse_cons]
      cases hrr : alookup rest.reverse k with
      | some v => rw [alookup_append_left_of_some _ _ _ hrr]
      | none =>
          rw [alookup_append_right_of_none _ _ _ hrr]
          by_cases hk : k1 = k
          · subst hk
            rw [alookup_alistSet_self]
            simp [alookup]
          · rw [alookup_alistSet_ne _ _ _ _ (Ne.symm hk)]
            simp [alookup, hk]

theorem handle_endpoint_dependencies_member (deps : List (HTTPMethod × HTTPMethodConfig))
    (extra : ExtraDeps) (m : HTTPMethod) :
    handle_endpoint_dependencies deps m.memberName extra =
      (match alookup deps m with
       | some c => dict_update (all_kwargs deps extra) (handle_config c extra)
       | none => all_kwargs deps extra) := by
  cases m <;> rfl

/-- C10: `handle_endpoint_dependencies` merges the `HTTPMethod.ALL` config's
kwargs first and the request method's config second, so a kwarg name
produced by the method-specific handler reaches the data layer with the
method-specific value; and for a request method that is not GET, POST,
PATCH or DELETE, the resulting kwargs agree with the `ALL` contribution
alone (for unrecognized methods the early return fires; for the member name
`"ALL"` the `ALL` config is merged a second time with the same result). -/
theorem claim_C10_method_override :
    (∀ (deps : List (HTTPMethod × HTTPMethodConfig)) (extra : ExtraDeps) (m : HTTPMethod)
       (cfgM : HTTPMethodConfig) (name : String) (v : Value),
       m ∈ ([.get, .post, .patch, .delete] : List HTTPMethod) →
       alookup deps m = some cfgM →
       ((handle_config cfgM extra).map Prod.fst).Nodup →
       alookup (handle_config cfgM extra) name = some v →
       alookup (handle_endpoint_dependencies deps m.memberName extra) name = some v) ∧
    (∀ (deps : List (HTTPMethod × HTTPMethodConfig)) (extra : ExtraDeps) (ms name : String),
       ms ∉ (["GET", "POST", "PATCH", "DELETE"] : List String) →
       alookup (handle_endpoint_dependencies deps ms extra) name =
         alookup (all_kwargs deps extra) name) := by
  constructor
  · intro deps extra m cfgM name v hm hdep hnd hlook
    have hcase : m = HTTPMethod.get ∨ m = HTTPMethod.post ∨ m = HTTPMethod.patch ∨
        m = HTTPMethod.delete := by
      simpa using hm
    rcases hcase with h | h | h | h <;>
      · subst h
        rw [handle_endpoint_dependencies_member]
        simp only [hdep]
        exact alookup_dict_update_mem _ _ _ _ hnd hlook
  · intro deps extra ms name hnot
    by_cases hmem : ms ∈ HTTPMethod.memberNames
    · have hall : ms = "ALL" := by
        simp only [HTTPMethod.memberNames, List.mem_cons, List.not_mem_nil, or_false] at hmem
        rcases hmem with h | h | h | h | h
        · exact h
        all_goals exact absurd (by simp [h]) hnot
      subst hall
      have hm := handle_endpoint_dependencies_member deps extra .all
      rw [show ("ALL" : String) = HTTPMethod.memberName .all from rfl, hm]
      cases halk : alookup deps HTTPMethod.all with
      | none => simp only [halk]
      | some c =>
          simp only [halk]
          have hak : all_kwargs deps extra = dict_update [] (handle_config c extra) := by
            unfold all_kwargs
            rw [halk]
          rw [hak]
          rw [alookup_dict_update_eq, alookup_dict_update_eq]
          cases hv : alookup (handle_config c extra).reverse name <;> simp [hv, alookup]
    · simp only [handle_endpoint_dependencies]
      rw [if_pos hmem]
      rfl

/-- C10 witness: with an `ALL` config contributing `session` and `mode` and
a `GET` config overriding `mode`, a GET request passes the GET value of
`mode` to the data layer; a PUT request's kwargs agree with the `ALL`
contribution. -/
theorem claim_C10_witness :
    alookup (handle_endpoint_dependencies deps10 "GET" []) "mode" = some (Value.vStr "get") ∧
    alookup (handle_endpoint_dependencies deps10 "PUT" []) "mode" =
      alookup (all_kwargs deps10 []) "mode" := by
  constructor
  · exact claim_C10_method_override.1 deps10 [] .get cfgGet10 "mode" (Value.vStr "get")
      (by decide) rfl (by decide) rfl
  · exact claim_C10_method_override.2 deps10 [] "PUT" "mode" (by decide)
